import Mathlib

/-
  Verification of the SafeStream AI Shield core: the frame-analysis pipeline
  (rate-limited capture / infer / overlay loop, in two variants) and the
  call/stream lifecycle state machine, shallowly embedded from the TypeScript
  sources:
    - src/types.ts                      (data model)
    - src/services/geminiService.ts     (both detectSensitiveContent variants)
    - src/components/VideoProcessor.tsx (classification pipeline, 200ms throttle)
    - src/unnamed/part_002              (region-detection pipeline, 400ms throttle)
    - src/unnamed/part_000, part_001    (WebRTCContainer: call lifecycle)
-/

namespace SafeStream

-- ===========================================================================
-- Data model (src/types.ts and the RegionSet variant of DetectionResult)
-- ===========================================================================

/-- One entry of the classification output of the NSFWJS model
(src/types.ts, Prediction).  The className union type of the source is a
string literal union, embedded as String; probability is embedded as a
rational since JS numbers at these magnitudes behave as exact reals here. -/
structure Prediction where
  className : String
  probability : ℚ
deriving DecidableEq, Repr

/-- Whole-frame classification result (src/types.ts, DetectionResult). -/
structure DetectionResult where
  isSafe : Bool
  predictions : List Prediction
  primaryCategory : String
deriving DecidableEq, Repr

/-- One normalized bounding region returned by the region-detection variant
(responseSchema of src/services/geminiService.ts, second part). -/
structure BoundingBox where
  ymin : ℚ
  xmin : ℚ
  ymax : ℚ
  xmax : ℚ
  label : Option String := none
  confidence : Option ℚ := none
deriving DecidableEq, Repr

/-- Region-detection result: the detections list of the remote-API variant. -/
structure RegionResult where
  detections : List BoundingBox
deriving DecidableEq, Repr

/-- Call status enumeration (src/types.ts, CallStatus). -/
inductive CallStatus where
  | IDLE
  | CONNECTING
  | CONNECTED
  | ENDED
deriving DecidableEq, Repr

-- ===========================================================================
-- JS numeric helpers
-- ===========================================================================

/-- A JavaScript number restricted to the values reachable in the stats
computation: a finite rational or positive Infinity (the value of 1000/0 in
JS; Math.round maps Infinity to Infinity). -/
inductive JSVal where
  | fin (q : ℚ)
  | inf
deriving DecidableEq, Repr

/-- JavaScript Math.round on finite values: round half toward positive
infinity, i.e. the floor of q + 1/2. -/
def jsRound (q : ℚ) : ℤ := Int.floor (q + 1/2)

/-- JavaScript division 1000 / d followed by Math.round, as used for the
fps stat: in JS, 1000 / 0 evaluates to Infinity and Math.round(Infinity)
is Infinity, so a zero duration is not mapped to a finite value. -/
def fpsValue (d : ℚ) : JSVal :=
  if d = 0 then JSVal.inf else JSVal.fin (jsRound (1000 / d))

-- ===========================================================================
-- Detector Adapter (src/services/geminiService.ts, both variants)
-- ===========================================================================

/-- Outcome of a fallible backend call: a value, or a thrown error
(network failure, model failure, JSON parse failure). -/
inductive BackendResp (α : Type) where
  | ok (val : α)
  | error
deriving DecidableEq, Repr

/-- The on-device classification variant of detectSensitiveContent
(src/services/geminiService.ts, first part, lines 46-79).
Inputs: whether the one-time model load has completed (the model singleton
is non-null), and the outcome of model.classify on the current frame.
Faithful to the source:
  - model not loaded: return the Loading safe default for this frame
    (the source also fires a load attempt, which has no result here);
  - classify threw: the catch returns the Error safe default;
  - classify returned an empty list: reading className of predictions[0]
    (undefined) throws a TypeError inside the try, so the catch returns the
    Error safe default;
  - otherwise the verdict is computed from the top prediction: unsafe
    exactly when its class is contained in the Porn/Hentai list and its
    probability is strictly above the 0.55 threshold. -/
def detectSensitiveContentClass (modelLoaded : Bool)
    (classifyResp : BackendResp (List Prediction)) : DetectionResult :=
  if modelLoaded = false then
    { isSafe := true, predictions := [], primaryCategory := "Loading" }
  else
    match classifyResp with
    | BackendResp.error =>
        { isSafe := true, predictions := [], primaryCategory := "Error" }
    | BackendResp.ok [] =>
        { isSafe := true, predictions := [], primaryCategory := "Error" }
    | BackendResp.ok (top :: rest) =>
        let isUnsafe :=
          (["Porn", "Hentai"] : List String).contains top.className
            && decide (top.probability > (0.55 : ℚ))
        { isSafe := !isUnsafe,
          predictions := top :: rest,
          primaryCategory := top.className }

/-- The remote-API region-detection variant of detectSensitiveContent
(src/services/geminiService.ts, second part, lines 93-153).
Inputs: the outcome of the generateContent round-trip (ok with the optional
response text, or a thrown error), and the JSON parse oracle for the
response text.  Faithful to the source: a thrown request, an absent text,
or a parse failure all yield the empty-detections safe default via the
early return and the catch. -/
def detectSensitiveContentRegion (apiResp : BackendResp (Option String))
    (parseJson : String → BackendResp RegionResult) : RegionResult :=
  match apiResp with
  | BackendResp.error => { detections := [] }
  | BackendResp.ok none => { detections := [] }
  | BackendResp.ok (some text) =>
      match parseJson text with
      | BackendResp.error => { detections := [] }
      | BackendResp.ok r => r

-- ===========================================================================
-- Stats Reporter (onStatsUpdate payloads of both pipeline variants)
-- ===========================================================================

/-- The stats record pushed by onStatsUpdate (src/types.ts,
ProcessingStats).  fps is a JSVal because the source computes it by an
unguarded JS division. -/
structure ProcessingStats where
  fps : JSVal
  latencyMs : ℤ
  detectionsCount : ℤ
deriving DecidableEq, Repr

/-- The stats pushed after a completed classification round-trip
(src/components/VideoProcessor.tsx lines 68-77): startTime and endTime are
the performance.now readings around the await; topProb is
predictions[0]?.probability with 0 when the list is empty. -/
def statsForClass (startTime endTime : ℚ) (r : DetectionResult) : ProcessingStats :=
  let topProb : ℚ :=
    match r.predictions with
    | [] => 0
    | p :: _ => p.probability
  { fps := fpsValue (endTime - startTime),
    latencyMs := jsRound (endTime - startTime),
    detectionsCount := if r.isSafe then 0 else jsRound (topProb * 100) }

/-- The stats pushed after a completed region-detection round-trip
(src/unnamed/part_002 lines 75-84). -/
def statsForRegion (startTime endTime : ℚ) (r : RegionResult) : ProcessingStats :=
  { fps := fpsValue (endTime - startTime),
    latencyMs := jsRound (endTime - startTime),
    detectionsCount := (r.detections.length : ℤ) }

-- ===========================================================================
-- Overlay Renderer (renderOverlay of both pipeline variants)
-- ===========================================================================

/-- One canvas-context operation issued by renderOverlay.  Style-setting
calls (fillStyle, font, lineWidth, shadow, textAlign) are not modelled;
every geometry-affecting or paint-producing call is. -/
inductive CanvasOp where
  | clearRect (x y w h : ℚ)
  | save
  | restore
  | translate (x y : ℚ)
  | scale (sx sy : ℚ)
  | fillRect (x y w h : ℚ)
  | arcFill (cx cy r : ℚ)
  | strokeLine (x1 y1 x2 y2 : ℚ)
  | fillText (s : String) (x y : ℚ)
  | clipRect (x y w h : ℚ)
  | strokeRect (x y w h : ℚ)
deriving DecidableEq, Repr

/-- Whether an operation puts paint on the surface (an occlusion, outline,
glyph or label).  clearRect erases, save/restore/translate/scale/clipRect
only manipulate context state. -/
def CanvasOp.paints : CanvasOp → Bool
  | CanvasOp.fillRect _ _ _ _ => true
  | CanvasOp.arcFill _ _ _ => true
  | CanvasOp.strokeLine _ _ _ _ => true
  | CanvasOp.fillText _ _ _ => true
  | CanvasOp.strokeRect _ _ _ _ => true
  | _ => false

/-- One render tick of the classification variant
(src/components/VideoProcessor.tsx, renderOverlay, lines 110-176):
clear the full canvas, enter the (possibly mirrored) transform, and paint
the full-frame occlusion with the centered warning exactly when the
pipeline is active and the stored result exists and is unsafe. -/
def renderOverlayClass (isActive isMirrored : Bool)
    (result : Option DetectionResult) (w h : ℚ) : List CanvasOp :=
  [CanvasOp.clearRect 0 0 w h, CanvasOp.save]
  ++ (if isMirrored then [CanvasOp.translate w 0, CanvasOp.scale (-1) 1] else [])
  ++ (match result with
      | some r =>
        if isActive && !r.isSafe then
          [CanvasOp.fillRect 0 0 w h,
           CanvasOp.restore, CanvasOp.save,
           CanvasOp.arcFill (w / 2) (h / 2 - 20) 30,
           CanvasOp.strokeLine (w / 2 - 15) (h / 2 - 20) (w / 2 + 15) (h / 2 - 20),
           CanvasOp.fillText "SENSITIVE CONTENT" (w / 2) (h / 2 + 30),
           CanvasOp.fillText (String.append "Category: " r.primaryCategory) (w / 2) (h / 2 + 55)]
        else []
      | none => [])
  ++ [CanvasOp.restore]

/-- The per-region paint group of the region variant
(src/unnamed/part_002, renderOverlay body of the forEach, lines 133-167):
normalized coordinates are converted with the current canvas dimensions. -/
def boxOps (box : BoundingBox) (w h : ℚ) : List CanvasOp :=
  let y := box.ymin * h
  let x := box.xmin * w
  let bh := (box.ymax - box.ymin) * h
  let bw := (box.xmax - box.xmin) * w
  [CanvasOp.save,
   CanvasOp.clipRect x y bw bh,
   CanvasOp.fillRect x y bw bh,
   CanvasOp.fillText "SENSITIVE CONTENT" (x + bw / 2) (y + bh / 2),
   CanvasOp.fillText "AI HIDDEN" (x + bw / 2) (y + bh / 2 + 15),
   CanvasOp.restore,
   CanvasOp.strokeRect x y bw bh]

/-- One render tick of the region-detection variant
(src/unnamed/part_002, renderOverlay, lines 117-174): clear the canvas,
then, only when the pipeline is active, paint every stored box. -/
def renderOverlayRegion (isActive : Bool) (boxes : List BoundingBox)
    (w h : ℚ) : List CanvasOp :=
  CanvasOp.clearRect 0 0 w h ::
    (if isActive then (boxes.map (fun b => boxOps b w h)).flatten else [])

-- ===========================================================================
-- Frame Sampler and Scheduler (processFrame of both pipeline variants)
-- ===========================================================================

/-- One submitted inference request: the effect-run identity (the epoch in
which the submitting closure was created, i.e. whose isMounted flag guards
applying the response) and the Date.now timestamp of submission. -/
structure Request where
  epoch : ℕ
  time : ℤ
deriving DecidableEq, Repr

/-- The mutable state of one stream side of the pipeline, over an abstract
stored-result type α (DetectionResult for the classification variant, the
BoundingBox list for the region variant):
  - epoch counts effect runs of the processing useEffect; a cleanup
    (isMounted := false) followed by a fresh run is one increment, so a
    request is applied only when its epoch equals the current epoch;
  - active is the isActive prop of the current run;
  - processing is processingRef.current (shared across runs);
  - lastTime is lastProcessedTimeRef.current (shared across runs);
  - result is resultRef.current (resp. detectionsRef.current);
  - pending lists the outstanding detectSensitiveContent promises; the
    source can hold at most one, which is exactly the single-flight
    invariant proved below rather than assumed. -/
structure SchedState (α : Type) where
  epoch : ℕ
  active : Bool
  processing : Bool
  lastTime : ℤ
  result : Option α
  pending : List Request
deriving DecidableEq, Repr

/-- Scheduler events: a requestAnimationFrame tick of processFrame at
Date.now = now (ready folds the frame-readiness conjuncts: modelReady and
video.readyState === 4 for the classification variant, canvas and context
availability for the region variant); resolution of pending request i at
time now with result r; deactivation of the shield (effect cleanup plus
the else branch clearing the stored result); reactivation (effect cleanup
plus a fresh run). -/
inductive Event (α : Type) where
  | tick (now : ℤ) (ready : Bool)
  | complete (i : ℕ) (now : ℤ) (r : α)
  | deactivate
  | activate
deriving DecidableEq, Repr

/-- Initial state: refs start at false / 0 / null / no outstanding call. -/
def initState (α : Type) : SchedState α :=
  { epoch := 0, active := false, processing := false,
    lastTime := 0, result := none, pending := [] }

/-- The submission guard of processFrame: active run, frame ready, strict
rate-limit window elapsed (now - lastProcessedTimeRef.current > I, with
I = 200 in the classification variant and I = 400 in the region variant),
and no request currently in flight (!processingRef.current). -/
def submitGuard (I : ℤ) (s : SchedState α) (now : ℤ) (ready : Bool) : Bool :=
  s.active && ready && decide (I < now - s.lastTime) && !s.processing

/-- One scheduler step.
  - tick: when the guard passes, processingRef is set and the request is
    issued with the current epoch; otherwise the tick is a no-op (the fresh
    frame is dropped).
  - complete: the awaited promise resolves.  The result is written to the
    stored slot only when the submitting closure is still mounted
    (its epoch is current); the finally block always clears processingRef
    and stamps lastProcessedTimeRef, mutating the shared refs even from a
    stale closure, exactly as in the source.
  - deactivate: the effect re-runs with isActive false: the old closure is
    unmounted (epoch increment) and the stored result is cleared.
  - activate: the effect re-runs with isActive true (epoch increment). -/
def step (I : ℤ) (s : SchedState α) : Event α → SchedState α
  | Event.tick now ready =>
      if submitGuard I s now ready then
        { s with processing := true,
                 pending := s.pending ++ [{ epoch := s.epoch, time := now }] }
      else s
  | Event.complete i now r =>
      if hi : i < s.pending.length then
        { s with processing := false,
                 lastTime := now,
                 pending := s.pending.eraseIdx i,
                 result := if (s.pending.get ⟨i, hi⟩).epoch = s.epoch
                           then some r else s.result }
      else s
  | Event.deactivate =>
      { s with epoch := s.epoch + 1, active := false, result := none }
  | Event.activate =>
      { s with epoch := s.epoch + 1, active := true }

/-- Run a trace of scheduler events. -/
def run (I : ℤ) (s : SchedState α) (tr : List (Event α)) : SchedState α :=
  tr.foldl (step I) s

/-- The states the pipeline of one stream side can actually reach. -/
inductive Reachable {α : Type} (I : ℤ) : SchedState α → Prop where
  | init : Reachable I (initState α)
  | next : ∀ {s : SchedState α} (e : Event α),
      Reachable I s → Reachable I (step I s e)

/-- The time stamp an event carries, when it reads the clock. -/
def eTime : Event α → Option ℤ
  | Event.tick now _ => some now
  | Event.complete _ now _ => some now
  | _ => none

/-- Physical well-formedness of a trace: the clock readings are at least t
and nondecreasing along the trace (Date.now and promise-resolution times
are monotone in real time). -/
def mono : ℤ → List (Event α) → Bool
  | _, [] => true
  | t, e :: tr =>
      match eTime e with
      | none => mono t tr
      | some u => decide (t ≤ u) && mono u tr

/-- The submission times a trace produces, in order. -/
def subTimes (I : ℤ) : SchedState α → List (Event α) → List ℤ
  | _, [] => []
  | s, e :: tr =>
      (match e with
       | Event.tick now ready => if submitGuard I s now ready then [now] else []
       | _ => []) ++ subTimes I (step I s e) tr

/-- Bookkeeping invariant for the spacing proof: ls is the most recent
submission time (none before the first submission), t a lower bound of all
future clock readings.  While a request is in flight its submission time
is at most t; after it resolves, lastProcessedTimeRef is at least the
submission time and at most t. -/
def Good (s : SchedState α) (ls : Option ℤ) (t : ℤ) : Prop :=
  match ls with
  | none => s.processing = false ∧ s.lastTime ≤ t
  | some t0 =>
      (s.processing = true → t0 ≤ t)
      ∧ (s.processing = false → t0 ≤ s.lastTime ∧ s.lastTime ≤ t)

-- ===========================================================================
-- Call Lifecycle Manager (WebRTCContainer, src/unnamed/part_000 / part_001)
-- ===========================================================================

/-- The lifecycle state touched by endCall: whether a call object is held
(connectionRef.current), the local stream handle with the liveness of its
constituent media tracks, whether a remote stream handle is held, and the
call status. -/
structure WebRTCState where
  hasConnection : Bool
  localStream : Option (List Bool)
  remoteStream : Bool
  callStatus : CallStatus
deriving DecidableEq, Repr

/-- endCall (src/unnamed/part_000 lines 138-154, identically part_001
lines 140-160).  Returns the new state paired with the final liveness of
the tracks of the pre-call local stream (empty when none existed): the
close of the call object, then, only when stopCamera is set and a local
stream exists, track.stop() on every constituent track and clearing of the
handle; the remote stream handle is always cleared; only the stopCamera
path moves the status to ENDED (the 2000ms timeout to IDLE is a later
asynchronous step, not part of this call). -/
def endCall (stopCamera : Bool) (s : WebRTCState) : WebRTCState × List Bool :=
  if stopCamera then
    match s.localStream with
    | some tracks =>
        ({ hasConnection := false, localStream := none,
           remoteStream := false, callStatus := CallStatus.ENDED },
         tracks.map (fun _ => false))
    | none =>
        ({ hasConnection := false, localStream := none,
           remoteStream := false, callStatus := CallStatus.ENDED }, [])
  else
    ({ hasConnection := false, localStream := s.localStream,
       remoteStream := false, callStatus := s.callStatus },
     s.localStream.getD [])

/-- The getUserMedia outcome when auto-answering (camera permission
granted with a stream of tracks, or denied). -/
inductive CameraResult where
  | granted (tracks : List Bool)
  | denied
deriving DecidableEq, Repr

/-- Outcome of the inbound-call handler: the stream call.answer received
(none when answer was never invoked), the resulting local stream handle,
the status value set during handling (none when left unchanged), and the
surfaced error message. -/
structure IncomingCallOutcome where
  answeredWith : Option (List Bool)
  localStream : Option (List Bool)
  statusSet : Option CallStatus
  errorMsg : Option String
deriving DecidableEq, Repr

/-- The handler installed for the call event of the peer
(src/unnamed/part_000 lines 43-62; same logic in part_001 lines 37-59).
With a current local stream, answer immediately with it (and
setupCallEventHandlers sets CONNECTED); with none, getUserMedia first:
on grant, store the stream, set CONNECTED and answer with it; on denial,
never answer and surface the camera-access error. -/
def handleIncomingCall (currentStream : Option (List Bool))
    (cam : CameraResult) : IncomingCallOutcome :=
  match currentStream with
  | some s =>
      { answeredWith := some s, localStream := some s,
        statusSet := some CallStatus.CONNECTED, errorMsg := none }
  | none =>
      match cam with
      | CameraResult.granted s =>
          { answeredWith := some s, localStream := some s,
            statusSet := some CallStatus.CONNECTED, errorMsg := none }
      | CameraResult.denied =>
          { answeredWith := none, localStream := none,
            statusSet := none,
            errorMsg := some "Could not access camera to answer call." }

-- ===========================================================================
-- Example inputs used by witnesses
-- ===========================================================================

/-- A concrete unsafe classification result used in scheduler witnesses. -/
def exampleResult : DetectionResult :=
  { isSafe := false,
    predictions := [{ className := "Porn", probability := 9/10 }],
    primaryCategory := "Porn" }

/-- A reachable scheduler state of the classification pipeline with one
request in flight: activate, then a tick at t = 201 that passes the
200ms guard. -/
def c2State : SchedState DetectionResult :=
  step 200 (step 200 (initState DetectionResult) Event.activate)
    (Event.tick 201 true)

/-- A reachable scheduler state with one request in flight, used for the
stale-result witness. -/
def c4State : SchedState DetectionResult :=
  step 200 (step 200 (initState DetectionResult) Event.activate)
    (Event.tick 201 true)

/-- The state of the c4State pipeline after deactivating mid-flight and
reactivating, with the old request still unresolved. -/
def c4StateAfter : SchedState DetectionResult :=
  run 200 (step 200 c4State Event.deactivate) [Event.activate]

/-- A concrete well-timed trace for the rate-limit witness: activate,
submit at 500, resolve at 600, submit again at 1100. -/
def c7Trace : List (Event DetectionResult) :=
  [Event.activate, Event.tick 500 true,
   Event.complete 0 600 exampleResult, Event.tick 1100 true]

/-- A concrete lifecycle state: in a call, local stream with two live
tracks, remote stream attached. -/
def c5State : WebRTCState :=
  { hasConnection := true,
    localStream := some [true, true],
    remoteStream := true,
    callStatus := CallStatus.CONNECTED }

-- ===========================================================================
-- Theorems
-- ===========================================================================

/-- Claim C1: for every render tick with the pipeline inactive
(isActive = false), both renderOverlay variants first clear the full
overlay canvas and issue no painting operation at all, whatever stale
result or box list is still stored. -/
theorem renderOverlay_inactive_clears_and_paints_nothing
    (isMirrored : Bool) (result : Option DetectionResult)
    (boxes : List BoundingBox) (w h : ℚ) :
    ((renderOverlayClass false isMirrored result w h).head?
        = some (CanvasOp.clearRect 0 0 w h)
      ∧ (renderOverlayClass false isMirrored result w h).all
          (fun op => ! op.paints) = true)
    ∧ renderOverlayRegion false boxes w h = [CanvasOp.clearRect 0 0 w h] := by
  refine ⟨⟨?_, ?_⟩, ?_⟩ <;>
    cases isMirrored <;> cases result <;>
      simp [renderOverlayClass, renderOverlayRegion, CanvasOp.paints]

/-- Claim C3: detectSensitiveContent fails open on every failure path.
The classification variant returns the Loading safe default when called
before the one-time model load has completed, and the Error safe default
when the backend throws; the region variant returns the empty detections
list when the request throws, when the response has no text, and when the
text does not parse.  All failure paths are total returns, never throws. -/
theorem detectSensitiveContent_fails_open
    (resp : BackendResp (List Prediction))
    (parseJson : String → BackendResp RegionResult) (text : String) :
    detectSensitiveContentClass false resp
        = { isSafe := true, predictions := [], primaryCategory := "Loading" }
    ∧ detectSensitiveContentClass true BackendResp.error
        = { isSafe := true, predictions := [], primaryCategory := "Error" }
    ∧ (detectSensitiveContentClass false resp).isSafe = true
    ∧ detectSensitiveContentRegion BackendResp.error parseJson
        = { detections := [] }
    ∧ detectSensitiveContentRegion (BackendResp.ok none) parseJson
        = { detections := [] }
    ∧ (parseJson text = BackendResp.error →
        detectSensitiveContentRegion (BackendResp.ok (some text)) parseJson
          = { detections := [] }) := by
  refine ⟨rfl, rfl, rfl, rfl, rfl, fun hp => ?_⟩
  simp [detectSensitiveContentRegion, hp]

/-- Witness for claim C3 at a concrete failing parse oracle and text. -/
theorem detectSensitiveContent_fails_open_witness :
    detectSensitiveContentClass false BackendResp.error
        = { isSafe := true, predictions := [], primaryCategory := "Loading" }
    ∧ detectSensitiveContentClass true BackendResp.error
        = { isSafe := true, predictions := [], primaryCategory := "Error" }
    ∧ (detectSensitiveContentClass false BackendResp.error).isSafe = true
    ∧ detectSensitiveContentRegion BackendResp.error (fun _ => BackendResp.error)
        = { detections := [] }
    ∧ detectSensitiveContentRegion (BackendResp.ok none) (fun _ => BackendResp.error)
        = { detections := [] }
    ∧ detectSensitiveContentRegion (BackendResp.ok (some "nonsense"))
        (fun _ => BackendResp.error) = { detections := [] } := by
  have h := detectSensitiveContent_fails_open BackendResp.error
    (fun _ => BackendResp.error) "nonsense"
  exact ⟨h.1, h.2.1, h.2.2.1, h.2.2.2.1, h.2.2.2.2.1, h.2.2.2.2.2 rfl⟩

/-- Claim C5: a soft call-end (stopCamera = false) closes the call
connection and clears only the remote stream, leaving the local stream
handle, its tracks and the status untouched; a full hangup
(stopCamera = true) additionally clears the local handle and stops every
constituent track, so no live track remains. -/
theorem endCall_soft_vs_full (s : WebRTCState) (tracks : List Bool) :
    ((endCall false s).1.hasConnection = false
      ∧ (endCall false s).1.remoteStream = false
      ∧ (endCall false s).1.localStream = s.localStream
      ∧ (endCall false s).2 = s.localStream.getD []
      ∧ (endCall false s).1.callStatus = s.callStatus)
    ∧ (endCall true s).1.hasConnection = false
    ∧ (endCall true s).1.remoteStream = false
    ∧ (endCall true s).1.localStream = none
    ∧ (s.localStream = some tracks →
        (endCall true s).2 = tracks.map (fun _ => false)
        ∧ (endCall true s).2.all (fun b => ! b) = true) := by
  refine ⟨⟨rfl, rfl, rfl, rfl, rfl⟩, ?_, ?_, ?_, fun hl => ⟨?_, ?_⟩⟩
  · rcases hs : s.localStream with _ | t <;> simp [endCall, hs]
  · rcases hs : s.localStream with _ | t <;> simp [endCall, hs]
  · rcases hs : s.localStream with _ | t <;> simp [endCall, hs]
  · simp [endCall, hl]
  · simp [endCall, hl, List.all_eq_true]

/-- Witness for claim C5 at a concrete two-track in-call state. -/
theorem endCall_soft_vs_full_witness :
    ((endCall false c5State).1.hasConnection = false
      ∧ (endCall false c5State).1.remoteStream = false
      ∧ (endCall false c5State).1.localStream = c5State.localStream
      ∧ (endCall false c5State).2 = c5State.localStream.getD []
      ∧ (endCall false c5State).1.callStatus = c5State.callStatus)
    ∧ (endCall true c5State).1.hasConnection = false
    ∧ (endCall true c5State).1.remoteStream = false
    ∧ (endCall true c5State).1.localStream = none
    ∧ ((endCall true c5State).2 = [true, true].map (fun _ => false)
        ∧ (endCall true c5State).2.all (fun b => ! b) = true) := by
  have h := endCall_soft_vs_full c5State [true, true]
  exact ⟨h.1, h.2.1, h.2.2.1, h.2.2.2.1, h.2.2.2.2 rfl⟩

/-- Claim C6: on inbound call arrival, an existing local stream is used to
answer immediately; with no local stream, the camera is acquired first and
the call answered with the acquired stream; on acquisition failure the
call is never answered and the camera-access error is surfaced. -/
theorem handleIncomingCall_behavior (s : List Bool) (cam : CameraResult) :
    (handleIncomingCall (some s) cam).answeredWith = some s
    ∧ (handleIncomingCall (some s) cam).errorMsg = none
    ∧ (handleIncomingCall none (CameraResult.granted s)).answeredWith = some s
    ∧ (handleIncomingCall none (CameraResult.granted s)).localStream = some s
    ∧ (handleIncomingCall none (CameraResult.granted s)).statusSet
        = some CallStatus.CONNECTED
    ∧ (handleIncomingCall none CameraResult.denied).answeredWith = none
    ∧ (handleIncomingCall none CameraResult.denied).errorMsg
        = some "Could not access camera to answer call." := by
  exact ⟨rfl, rfl, rfl, rfl, rfl, rfl, rfl⟩

-- ---------------------------------------------------------------------------
-- Scheduler lemmas
-- ---------------------------------------------------------------------------

/-- In every reachable state, processingRef cleared means no outstanding
request, and there is never more than one outstanding request. -/
theorem reachable_single_flight {α : Type} {I : ℤ} {s : SchedState α}
    (h : Reachable I s) :
    (s.processing = false → s.pending = []) ∧ s.pending.length ≤ 1 := by
  induction h with
  | init => simp [initState]
  | @next s e _ ih =>
    obtain ⟨ih1, ih2⟩ := ih
    cases e with
    | tick now ready =>
      by_cases hg : submitGuard I s now ready = true
      · have hproc : s.processing = false := by
          simp only [submitGuard, Bool.and_eq_true, Bool.not_eq_true'] at hg
          exact hg.2
        have hp : s.pending = [] := ih1 hproc
        simp [step, hg, hp]
      · simp only [step, hg, Bool.false_eq_true, if_false]
        exact ⟨ih1, ih2⟩
    | complete i now r =>
      by_cases hi : i < s.pending.length
      · have hlen := List.length_eraseIdx_of_lt hi
        constructor
        · intro _
          have : (s.pending.eraseIdx i).length = 0 := by
            simp only [step, hi, dif_pos] at *
            omega
          simpa [step, hi, List.length_eq_zero] using this
        · simp only [step, hi, dif_pos]
          omega
      · simp only [step, hi, dif_neg, not_false_iff]
        exact ⟨ih1, ih2⟩
    | deactivate => exact ⟨fun hp => ih1 hp, ih2⟩
    | activate => exact ⟨fun hp => ih1 hp, ih2⟩

/-- Every outstanding request was submitted in the current epoch or an
earlier one. -/
theorem epoch_le_of_mem_pending {α : Type} {I : ℤ} {s : SchedState α}
    (h : Reachable I s) :
    ∀ req ∈ s.pending, req.epoch ≤ s.epoch := by
  induction h with
  | init => simp [initState]
  | @next s e _ ih =>
    cases e with
    | tick now ready =>
      by_cases hg : submitGuard I s now ready = true
      · intro req hreq
        have hepoch : (step I s (Event.tick now ready)).epoch = s.epoch := by
          simp [step, hg]
        rw [hepoch]
        simp only [step, hg, if_true, List.mem_append, List.mem_singleton] at hreq
        rcases hreq with hreq | hreq
        · exact ih req hreq
        · simp [hreq]
      · simpa [step, hg] using ih
    | complete i now r =>
      by_cases hi : i < s.pending.length
      · intro req hreq
        simp only [step, hi, dif_pos] at hreq ⊢
        exact ih req (List.eraseIdx_subset _ _ hreq)
      · simpa [step, hi] using ih
    | deactivate =>
      intro req hreq
      simp only [step] at hreq ⊢
      exact le_trans (ih req hreq) (Nat.le_succ _)
    | activate =>
      intro req hreq
      simp only [step] at hreq ⊢
      exact le_trans (ih req hreq) (Nat.le_succ _)

/-- The epoch counter never decreases across a step. -/
theorem epoch_le_step {α : Type} (I : ℤ) (s : SchedState α) (e : Event α) :
    s.epoch ≤ (step I s e).epoch := by
  cases e with
  | tick now ready =>
    by_cases hg : submitGuard I s now ready = true <;> simp [step, hg]
  | complete i now r =>
    by_cases hi : i < s.pending.length <;> simp [step, hi]
  | deactivate => simp [step]
  | activate => simp [step]

/-- The epoch counter never decreases across a trace. -/
theorem epoch_le_run {α : Type} (I : ℤ) (s : SchedState α)
    (tr : List (Event α)) : s.epoch ≤ (run I s tr).epoch := by
  induction tr generalizing s with
  | nil => exact le_refl _
  | cons e tr ih =>
    exact le_trans (epoch_le_step I s e) (ih (step I s e))

/-- The bookkeeping invariant is upward monotone in the time bound. -/
theorem Good_mono {α : Type} {s : SchedState α} {ls : Option ℤ} {t u : ℤ}
    (htu : t ≤ u) (hg : Good s ls t) : Good s ls u := by
  cases ls with
  | none => exact ⟨hg.1, le_trans hg.2 htu⟩
  | some t0 =>
    exact ⟨fun hp => le_trans (hg.1 hp) htu,
           fun hp => ⟨(hg.2 hp).1, le_trans (hg.2 hp).2 htu⟩⟩

/-- Spacing lemma: along any well-timed trace, the most recent submission
time followed by all future submission times is spaced by strictly more
than the rate-limit interval. -/
theorem spaced_aux {α : Type} (I : ℤ) (tr : List (Event α)) :
    ∀ (s : SchedState α) (ls : Option ℤ) (t : ℤ),
      mono t tr = true → Good s ls t →
      List.Chain' (fun a b => a + I < b) (ls.toList ++ subTimes I s tr) := by
  induction tr with
  | nil =>
    intro s ls t _ _
    cases ls <;> simp [subTimes]
  | cons e tr ih =>
    intro s ls t hm hg
    cases e with
    | tick now ready =>
      have hm' : t ≤ now ∧ mono now tr = true := by
        simpa [mono, eTime, Bool.and_eq_true, decide_eq_true_eq] using hm
      by_cases hsub : submitGuard I s now ready = true
      · have hparts : s.active = true ∧ ready = true
            ∧ I < now - s.lastTime ∧ s.processing = false := by
          simpa [submitGuard, Bool.and_eq_true, Bool.not_eq_true',
                 decide_eq_true_eq, and_assoc] using hsub
        have hstep : step I s (Event.tick now ready)
            = { s with processing := true,
                       pending := s.pending ++ [{ epoch := s.epoch, time := now }] } := by
          simp [step, hsub]
        have hgood : Good (step I s (Event.tick now ready)) (some now) now := by
          rw [hstep]
          exact ⟨fun _ => le_refl now, fun hp => by simp at hp⟩
        have hchain := ih (step I s (Event.tick now ready)) (some now) now hm'.2 hgood
        simp only [Option.toList_some, List.cons_append, List.nil_append] at hchain
        cases ls with
        | none =>
          simpa [subTimes, hsub] using hchain
        | some t0 =>
          have ht0 : t0 ≤ s.lastTime := (hg.2 hparts.2.2.2).1
          have hlt : t0 + I < now := by
            have := hparts.2.2.1
            omega
          simp only [subTimes, hsub, if_true, Option.toList_some,
                     List.cons_append, List.singleton_append, List.nil_append]
          exact List.Chain'.cons hlt hchain
      · have hstep : step I s (Event.tick now ready) = s := by
          simp [step, hsub]
        have hchain := ih s ls now hm'.2 (Good_mono hm'.1 hg)
        simpa [subTimes, hsub, hstep] using hchain
    | complete i now r =>
      have hm' : t ≤ now ∧ mono now tr = true := by
        simpa [mono, eTime, Bool.and_eq_true, decide_eq_true_eq] using hm
      have ht0now : ∀ t0, ls = some t0 → t0 ≤ now := by
        intro t0 hls
        subst hls
        cases hp : s.processing with
        | true => exact le_trans (hg.1 hp) hm'.1
        | false => exact le_trans (le_trans (hg.2 hp).1 (hg.2 hp).2) hm'.1
      by_cases hi : i < s.pending.length
      · have hstep : (step I s (Event.complete i now r)).processing = false
            ∧ (step I s (Event.complete i now r)).lastTime = now := by
          simp [step, hi]
        have hgood : Good (step I s (Event.complete i now r)) ls now := by
          cases ls with
          | none => exact ⟨hstep.1, le_of_eq hstep.2⟩
          | some t0 =>
            refine ⟨fun _ => ht0now t0 rfl, fun _ => ?_⟩
            rw [hstep.2]
            exact ⟨ht0now t0 rfl, le_refl now⟩
        have hchain := ih (step I s (Event.complete i now r)) ls now hm'.2 hgood
        simpa [subTimes] using hchain
      · have hstep : step I s (Event.complete i now r) = s := by
          simp [step, hi]
        have hchain := ih s ls now hm'.2 (Good_mono hm'.1 hg)
        simpa [subTimes, hstep] using hchain
    | deactivate =>
      have hm' : mono t tr = true := by simpa [mono, eTime] using hm
      have hgood : Good (step I s Event.deactivate) ls t := by
        cases ls with
        | none => exact ⟨hg.1, hg.2⟩
        | some t0 => exact ⟨fun hp => hg.1 hp, fun hp => hg.2 hp⟩
      have hchain := ih (step I s Event.deactivate) ls t hm' hgood
      simpa [subTimes] using hchain
    | activate =>
      have hm' : mono t tr = true := by simpa [mono, eTime] using hm
      have hgood : Good (step I s Event.activate) ls t := by
        cases ls with
        | none => exact ⟨hg.1, hg.2⟩
        | some t0 => exact ⟨fun hp => hg.1 hp, fun hp => hg.2 hp⟩
      have hchain := ih (step I s Event.activate) ls t hm' hgood
      simpa [subTimes] using hchain

-- ---------------------------------------------------------------------------
-- Scheduler claims
-- ---------------------------------------------------------------------------

/-- Claim C2: in every reachable pipeline state there is at most one
inference request in flight, and a tick that arrives while a request is
outstanding leaves the state unchanged: the fresh frame is dropped, never
queued, for any interval I and hence any cadence. -/
theorem processFrame_single_flight {α : Type} (I : ℤ) (s : SchedState α)
    (h : Reachable I s) :
    s.pending.length ≤ 1
    ∧ ∀ (now : ℤ) (ready : Bool), s.pending ≠ [] →
        step I s (Event.tick now ready) = s := by
  refine ⟨(reachable_single_flight h).2, fun now ready hne => ?_⟩
  have hproc : s.processing = true := by
    cases hp : s.processing with
    | false => exact absurd ((reachable_single_flight h).1 hp) hne
    | true => rfl
  have hg : submitGuard I s now ready = false := by
    simp [submitGuard, hproc]
  simp [step, hg]

/-- Witness for claim C2 at a concrete reachable state with one request
in flight: a tick at 300 drops the frame. -/
theorem processFrame_single_flight_witness :
    c2State.pending.length ≤ 1
    ∧ step 200 c2State (Event.tick 300 true) = c2State :=
  have hr : Reachable (α := DetectionResult) 200 c2State :=
    Reachable.next (Event.tick 201 true)
      (Reachable.next Event.activate Reachable.init)
  ⟨(processFrame_single_flight 200 c2State hr).1,
   (processFrame_single_flight 200 c2State hr).2 300 true (by decide)⟩

/-- Completing a request whose epoch is stale leaves the stored result
slot untouched: only the shared processing flag and time stamp move. -/
theorem complete_stale_result {α : Type} (I : ℤ) (S : SchedState α)
    (i : ℕ) (now : ℤ) (r : α) (hi : i < S.pending.length)
    (hne : (S.pending.get ⟨i, hi⟩).epoch ≠ S.epoch) :
    (step I S (Event.complete i now r)).result = S.result := by
  simp only [List.get_eq_getElem] at hne
  simp [step, hi, hne]

/-- Claim C4: a response to a request submitted before a deactivation is
never applied to the stored result slot, whatever happens after the
deactivation (including reactivation): its epoch is stale, so the
liveness guard rejects it. -/
theorem stale_result_rejected {α : Type} (I : ℤ) (s : SchedState α)
    (h : Reachable I s) (req : Request) (hm : req ∈ s.pending)
    (tr : List (Event α)) (i : ℕ) (now : ℤ) (r : α)
    (hi : i < (run I (step I s Event.deactivate) tr).pending.length)
    (hr : (run I (step I s Event.deactivate) tr).pending.get ⟨i, hi⟩ = req) :
    (step I (run I (step I s Event.deactivate) tr)
        (Event.complete i now r)).result
      = (run I (step I s Event.deactivate) tr).result := by
  have h1 : req.epoch ≤ s.epoch := epoch_le_of_mem_pending h req hm
  have h2 : s.epoch + 1 ≤ (run I (step I s Event.deactivate) tr).epoch := by
    have h3 := epoch_le_run I (step I s Event.deactivate) tr
    have h4 : (step I s Event.deactivate).epoch = s.epoch + 1 := by
      simp [step]
    omega
  have hne : ((run I (step I s Event.deactivate) tr).pending.get ⟨i, hi⟩).epoch
      ≠ (run I (step I s Event.deactivate) tr).epoch := by
    rw [hr]
    omega
  exact complete_stale_result I _ i now r hi hne

/-- Witness for claim C4: submit at 201, deactivate, reactivate, then the
old response arriving at 500 leaves the cleared result slot untouched. -/
theorem stale_result_rejected_witness :
    (step 200 c4StateAfter
        (Event.complete 0 500 exampleResult)).result = c4StateAfter.result :=
  have hr : Reachable (α := DetectionResult) 200 c4State :=
    Reachable.next (Event.tick 201 true)
      (Reachable.next Event.activate Reachable.init)
  stale_result_rejected 200 c4State hr { epoch := 1, time := 201 }
    (by decide) [Event.activate] 0 500 exampleResult (by decide) (by decide)

/-- Claim C7: along every well-timed trace, the 200ms classification
pipeline and the 400ms region pipeline issue consecutive submissions
separated by at least their respective minimum interval (in fact strictly
more, since the source guard is a strict comparison). -/
theorem min_interval_between_submissions {α : Type} (tr : List (Event α))
    (hm : mono 0 tr = true) :
    List.Chain' (fun a b => 200 ≤ b - a) (subTimes 200 (initState α) tr)
    ∧ List.Chain' (fun a b => 400 ≤ b - a) (subTimes 400 (initState α) tr) := by
  have hgood : ∀ I : ℤ, Good (α := α) (initState α) none 0 := by
    intro I
    exact ⟨rfl, le_refl 0⟩
  constructor
  · have h := spaced_aux (α := α) 200 tr (initState α) none 0 hm (hgood 200)
    simp only [Option.toList_none, List.nil_append] at h
    exact h.imp (fun hab => by omega)
  · have h := spaced_aux (α := α) 400 tr (initState α) none 0 hm (hgood 400)
    simp only [Option.toList_none, List.nil_append] at h
    exact h.imp (fun hab => by omega)

/-- Witness for claim C7 on a concrete trace submitting at 500 and 1100
with a completion at 600 in between. -/
theorem min_interval_between_submissions_witness :
    List.Chain' (fun a b => 200 ≤ b - a)
      (subTimes 200 (initState DetectionResult) c7Trace)
    ∧ List.Chain' (fun a b => 400 ≤ b - a)
      (subTimes 400 (initState DetectionResult) c7Trace) :=
  min_interval_between_submissions c7Trace (by decide)

/-- Claim C8 (code bug): the fps value pushed after a classification
round-trip is Math.round(1000 / (endTime - startTime)) with no
divide-by-zero guard, so a zero-duration round-trip yields Infinity, not
the 0 the specification requires.  A nonzero duration matches the
round(1000 / roundTripMs) formula. -/
theorem fps_unguarded_division :
    (statsForClass 5 5 exampleResult).fps = JSVal.inf
    ∧ (statsForClass 5 5 exampleResult).fps ≠ JSVal.fin 0
    ∧ (statsForClass 0 8 exampleResult).fps = JSVal.fin 125 := by
  have h1 : (statsForClass 5 5 exampleResult).fps = JSVal.inf := by
    simp [statsForClass, fpsValue]
  have h3 : (statsForClass 0 8 exampleResult).fps = JSVal.fin 125 := by
    have hq : jsRound (1000 / (8 : ℚ)) = 125 := by
      norm_num [jsRound]
    have hne : (8 : ℚ) - 0 ≠ 0 := by norm_num
    simp [statsForClass, fpsValue, hne, hq]
  refine ⟨h1, ?_, h3⟩
  rw [h1]
  simp

/-- Claim C9: the severity value (detectionsCount) pushed after a
completed round-trip is 0 for a safe classification, round of 100 times
the top prediction probability for an unsafe one, and the region count
for the region-detection variant. -/
theorem severity_formula (r : DetectionResult) (p : Prediction)
    (ps : List Prediction) (rr : RegionResult) (t0 t1 : ℚ) :
    (r.isSafe = true → (statsForClass t0 t1 r).detectionsCount = 0)
    ∧ (r.isSafe = false → r.predictions = p :: ps →
        (statsForClass t0 t1 r).detectionsCount = jsRound (p.probability * 100))
    ∧ (statsForRegion t0 t1 rr).detectionsCount = (rr.detections.length : ℤ) := by
  refine ⟨fun hs => ?_, fun hs hp => ?_, rfl⟩
  · simp [statsForClass, hs]
  · simp [statsForClass, hs, hp]

/-- Witness for claim C9: a safe result gives severity 0; an unsafe
result with top probability 0.9 gives severity 90; one region gives 1. -/
theorem severity_formula_witness :
    (statsForClass 0 10
        { isSafe := true, predictions := [], primaryCategory := "Neutral" }).detectionsCount = 0
    ∧ (statsForClass 0 10 exampleResult).detectionsCount
        = jsRound ((9/10 : ℚ) * 100)
    ∧ (statsForRegion 0 10
        { detections := [{ ymin := 0.1, xmin := 0.1, ymax := 0.5, xmax := 0.5 }] }).detectionsCount
        = (1 : ℤ) := by
  have h := severity_formula
    { isSafe := true, predictions := [], primaryCategory := "Neutral" }
    { className := "Porn", probability := 9/10 } [] { detections := [] } 0 10
  have h2 := severity_formula exampleResult
    { className := "Porn", probability := 9/10 } []
    { detections := [{ ymin := 0.1, xmin := 0.1, ymax := 0.5, xmax := 0.5 }] } 0 10
  exact ⟨h.1 rfl, h2.2.1 rfl rfl, h2.2.2⟩

/-- Claim C10: a successful classification is unsafe exactly when the top
prediction class is Porn or Hentai with probability strictly above 0.55;
a Neutral, Drawing or Sexy top prediction is safe regardless of
probability; primaryCategory is always the top prediction class. -/
theorem classification_verdict (top : Prediction) (rest : List Prediction) :
    ((detectSensitiveContentClass true (BackendResp.ok (top :: rest))).isSafe = false
      ↔ ((top.className = "Porn" ∨ top.className = "Hentai")
          ∧ top.probability > (0.55 : ℚ)))
    ∧ (top.className = "Neutral" ∨ top.className = "Drawing"
        ∨ top.className = "Sexy" →
        (detectSensitiveContentClass true (BackendResp.ok (top :: rest))).isSafe = true)
    ∧ (detectSensitiveContentClass true (BackendResp.ok (top :: rest))).primaryCategory
        = top.className := by
  refine ⟨?_, fun hc => ?_, rfl⟩
  · by_cases hp : top.className = "Porn" <;>
      by_cases hh : top.className = "Hentai" <;>
        by_cases hq : top.probability > (0.55 : ℚ) <;>
          simp [detectSensitiveContentClass, hp, hh, hq]
  · rcases hc with hc | hc | hc <;>
      simp [detectSensitiveContentClass, hc]

/-- Witness for claim C10: a top Sexy prediction at probability 0.99 is
reported safe with primaryCategory Sexy, and a top Porn prediction at 0.9
is reported unsafe. -/
theorem classification_verdict_witness :
    (detectSensitiveContentClass true
        (BackendResp.ok [{ className := "Sexy", probability := 99/100 }])).isSafe = true
    ∧ (detectSensitiveContentClass true
        (BackendResp.ok [{ className := "Sexy", probability := 99/100 }])).primaryCategory
        = "Sexy"
    ∧ (detectSensitiveContentClass true
        (BackendResp.ok [{ className := "Porn", probability := 9/10 }])).isSafe = false := by
  have h := classification_verdict { className := "Sexy", probability := 99/100 } []
  have h2 := classification_verdict { className := "Porn", probability := 9/10 } []
  refine ⟨h.2.1 (Or.inr (Or.inr rfl)), h.2.2, ?_⟩
  exact h2.1.mpr ⟨Or.inl rfl, by norm_num⟩

end SafeStream
